import Mathlib

/-!
Verification of the mcf password-encoder plugins (the argon2 and pbkdf2
packages): parameter serialization and parsing, validation, registration
and the AtLeast strength comparison, embedded shallowly from the Go
source.  Parameter texts are embedded as lists of characters.  The
external key-derivation libraries (the argon2 binding and the pbkdf2
function) are outside this repository and are kept opaque, passed in as
function parameters.
-/

/-- Character of a single decimal digit d below ten, as printed by the Go
fmt package for the verb d. -/
def digitCh (d : Nat) : Char := Char.ofNat (48 + d)

/-- Fuel-driven loop producing the decimal digits of n in front of the
accumulator, most significant digit first. -/
def natCharsAux : Nat → Nat → List Char → List Char
  | 0, _, acc => acc
  | fuel + 1, n, acc =>
    if n < 10 then digitCh n :: acc
    else natCharsAux fuel (n / 10) (digitCh (n % 10) :: acc)

/-- Decimal character representation of a natural number, as printed by
the Go fmt package for the verb d on an unsigned value. -/
def natChars (n : Nat) : List Char := natCharsAux (n + 1) n []

/-- Decimal representation of a Go int as printed by the fmt verb d: a
minus sign followed by the digits of the absolute value when negative,
plain digits otherwise. -/
def intChars (i : Int) : List Char :=
  if i < 0 then '-' :: natChars i.natAbs else natChars i.toNat

/-- True when the character is a decimal digit. -/
def isDigitCh (c : Char) : Bool := 48 ≤ c.toNat && c.toNat ≤ 57

/-- Splits a character list into its maximal leading run of decimal
digits and the remainder, as the fmt scanner consumes a number body. -/
def takeDigits : List Char → List Char × List Char
  | [] => ([], [])
  | c :: cs =>
    if isDigitCh c then (c :: (takeDigits cs).1, (takeDigits cs).2)
    else ([], c :: cs)

/-- Numeric value of a list of digit characters read most significant
digit first. -/
def digitsVal (ds : List Char) : Nat :=
  ds.foldl (fun a c => a * 10 + (c.toNat - 48)) 0

/-- Drops leading space characters, as the fmt scanner does before
scanning a verb. -/
def dropSpaces : List Char → List Char
  | [] => []
  | c :: cs => if c = ' ' then dropSpaces cs else c :: cs

/-- Consumes a nonempty run of decimal digits and yields its value and
the remaining input. -/
def scanDigits (s : List Char) : Option (Nat × List Char) :=
  if (takeDigits s).1 = [] then none
  else some (digitsVal (takeDigits s).1, (takeDigits s).2)

/-- Consumes an optional leading sign and reports whether it was a minus
sign, as the fmt scanner does for a signed number. -/
def scanSign : List Char → Bool × List Char
  | [] => (false, [])
  | c :: cs =>
    if c = '-' then (true, cs)
    else if c = '+' then (false, cs)
    else (false, c :: cs)

/-- Scans a signed decimal number for the fmt verb d aimed at a Go int
field: skips leading spaces, accepts an optional sign, consumes a
nonempty digit run and range-checks the value against the 64-bit int
range. -/
def scanInt (s : List Char) : Option (Int × List Char) :=
  match scanDigits (scanSign (dropSpaces s)).2 with
  | none => none
  | some (v, rest) =>
    let iv : Int := if (scanSign (dropSpaces s)).1 then -(v : Int) else (v : Int)
    if -9223372036854775808 ≤ iv ∧ iv < 9223372036854775808 then some (iv, rest)
    else none

/-- Scans an unsigned decimal number for the fmt verb d aimed at a Go
uint32 field: skips leading spaces, consumes a nonempty digit run and
range-checks the value against the 32-bit unsigned range. -/
def scanNat32 (s : List Char) : Option (Nat × List Char) :=
  match scanDigits (dropSpaces s) with
  | none => none
  | some (v, rest) => if v < 4294967296 then some (v, rest) else none

/-- Splits off the maximal leading run of non-space characters, as the
fmt verb s does. -/
def takeNonSpace : List Char → List Char × List Char
  | [] => ([], [])
  | c :: cs =>
    if c = ' ' then ([], c :: cs)
    else (c :: (takeNonSpace cs).1, (takeNonSpace cs).2)

/-- Scans a string for the fmt verb s: skips leading spaces and consumes
a nonempty run of non-space characters. -/
def scanStr (s : List Char) : Option (List Char × List Char) :=
  if (takeNonSpace (dropSpaces s)).1 = [] then none
  else some ((takeNonSpace (dropSpaces s)).1, (takeNonSpace (dropSpaces s)).2)

/-- Matches the literal characters of the format string against the
input and returns the remaining input, as fmt does for the non-verb
characters of a format. -/
def dropLit : List Char → List Char → Option (List Char)
  | [], s => some s
  | _ :: _, [] => none
  | l :: ls, c :: cs => if c = l then dropLit ls cs else none

/-- Error values returned by the config operations of the two plugins.
The constructor libErr carries the message of an error propagated from
the external argon2 key-derivation library; invalidParameter is the
declared argon2.ErrInvalidParameter carrying a field name and its value;
invalidHash is pbkdf2.ErrInvalidHash carrying its message text; parseErr
stands for a scan error reported by fmt.Sscanf. -/
inductive Err where
  | parseErr : Err
  | libErr : String → Err
  | invalidParameter : String → Int → Err
  | invalidHash : List Char → Err
deriving DecidableEq, Repr

/-- True exactly on the invalidParameter constructor, the error kind of
argon2.ErrInvalidParameter. -/
def Err.isInvalidParameter : Err → Bool
  | .invalidParameter _ _ => true
  | _ => false

/-- Signature of the external argon2 key-derivation function, the Key
function of the github.com pzduniak argon2 binding with the Argon2i mode
fixed: plaintext, salt, iterations, parallelism, memory and key length,
returning the digest bytes or a library error.  The library is not part
of this repository, so its behavior is an opaque parameter. -/
def ArgonKeyFn : Type :=
  List Char → List Char → Nat → Nat → Nat → Int → Except String (List Nat)

/-- The argon2 Config struct: key output size and salt length in bytes
(Go int, embedded as Int), and the iteration, memory and parallelism
costs (Go uint32, embedded as Nat with an explicit range predicate). -/
structure Argon2Config where
  KeyLen : Int
  SaltLen : Int
  Iterations : Nat
  Memory : Nat
  Parallelism : Nat
deriving DecidableEq, Repr

/-- Field values representable by the Go field types of argon2.Config:
uint32 for the three cost fields and 64-bit int for the two lengths. -/
def Argon2Config.inRange (c : Argon2Config) : Prop :=
  c.Iterations < 4294967296 ∧ c.Memory < 4294967296 ∧
  c.Parallelism < 4294967296 ∧
  -9223372036854775808 ≤ c.KeyLen ∧ c.KeyLen < 9223372036854775808 ∧
  -9223372036854775808 ≤ c.SaltLen ∧ c.SaltLen < 9223372036854775808

instance (c : Argon2Config) : Decidable c.inRange := by
  unfold Argon2Config.inRange; infer_instance

/-- The default argon2 configuration returned by GetConfig. -/
def argon2GetConfig : Argon2Config :=
  { KeyLen := 32, SaltLen := 16, Iterations := 8, Memory := 1024, Parallelism := 4 }

/-- The argon2 Config.Key operation: calls the external library with the
plaintext, the salt and the iterations, parallelism, memory and
key-length fields of the config. -/
def Argon2Config.Key (lib : ArgonKeyFn) (c : Argon2Config)
    (plaintext salt : List Char) : Except String (List Nat) :=
  lib plaintext salt c.Iterations c.Parallelism c.Memory c.KeyLen

/-- Sentinel plaintext used by argon2 validate. -/
def sentinelPassword : List Char := "password".toList

/-- Sentinel salt used by argon2 validate. -/
def sentinelSalt : List Char := "salt".toList

/-- The argon2 Config.validate operation: punts to the underlying
algorithm by attempting a derivation on the fixed sentinel inputs and
returns the library complaint, if any. -/
def Argon2Config.validate (lib : ArgonKeyFn) (c : Argon2Config) : Option Err :=
  match c.Key lib sentinelPassword sentinelSalt with
  | .error msg => some (.libErr msg)
  | .ok _ => none

/-- Characters of the first fragment of the argon2 format string. -/
def argon2LitKeyLen : List Char := "KeyLen=".toList

/-- Characters of the iterations fragment of the argon2 format string. -/
def argon2LitI : List Char := ",I=".toList

/-- Characters of the memory fragment of the argon2 format string. -/
def argon2LitM : List Char := ",M=".toList

/-- Characters of the parallelism fragment of the argon2 format string. -/
def argon2LitP : List Char := ",P=".toList

/-- The argon2 Config.Params operation: renders KeyLen, Iterations,
Memory and Parallelism with the format KeyLen=%d,I=%d,M=%d,P=%d.  The
SaltLen field does not appear in the format. -/
def Argon2Config.Params (c : Argon2Config) : List Char :=
  argon2LitKeyLen ++ intChars c.KeyLen ++ argon2LitI ++ natChars c.Iterations ++
  argon2LitM ++ natChars c.Memory ++ argon2LitP ++ natChars c.Parallelism

/-- The fmt.Sscanf step of argon2 SetParams: matches the format
KeyLen=%d,I=%d,M=%d,P=%d against the input and extracts the four
numbers. -/
def argon2Scan (s : List Char) : Option (Int × Nat × Nat × Nat) := do
  let s1 ← dropLit argon2LitKeyLen s
  let (kl, s2) ← scanInt s1
  let s3 ← dropLit argon2LitI s2
  let (it, s4) ← scanNat32 s3
  let s5 ← dropLit argon2LitM s4
  let (mem, s6) ← scanNat32 s5
  let s7 ← dropLit argon2LitP s6
  let (pl, _) ← scanNat32 s7
  pure (kl, it, mem, pl)

/-- The argon2 Config.SetParams operation: scans the four numbers into
the receiver config and validates the result; a scan failure or a
validation failure is returned as the error.  The Go receiver is mutated
in place; its partial mutation on the scan-failure path is not observed
by any caller and is not tracked here, only the returned error is. -/
def Argon2Config.SetParams (lib : ArgonKeyFn) (c : Argon2Config)
    (s : List Char) : Except Err Argon2Config :=
  match argon2Scan s with
  | none => .error .parseErr
  | some (kl, it, mem, pl) =>
    let c2 : Argon2Config :=
      { c with KeyLen := kl, Iterations := it, Memory := mem, Parallelism := pl }
    match c2.validate lib with
    | some e => .error e
    | none => .ok c2

/-- The typed core of the argon2 Config.AtLeast comparison: true when
none of the iteration, memory, parallelism or key-length fields is below
the current reference.  The SaltLen field is not consulted. -/
def Argon2Config.atLeastCfg (c cur : Argon2Config) : Bool :=
  !(decide (c.Iterations < cur.Iterations) || decide (c.Memory < cur.Memory) ||
    decide (c.Parallelism < cur.Parallelism) || decide (c.KeyLen < cur.KeyLen))

/-- The pbkdf2 Config struct: the HMAC hash name (a Go string type,
embedded as a character list), and the iteration count, key length and
salt length (Go int, embedded as Int). -/
structure Pbkdf2Config where
  Hash : List Char
  Iterations : Int
  KeyLen : Int
  SaltLen : Int
deriving DecidableEq, Repr

/-- Characters of the hash name SHA1. -/
def sha1Chars : List Char := "SHA1".toList

/-- Characters of the hash name SHA224. -/
def sha224Chars : List Char := "SHA224".toList

/-- Characters of the hash name SHA256. -/
def sha256Chars : List Char := "SHA256".toList

/-- Characters of the hash name SHA384. -/
def sha384Chars : List Char := "SHA384".toList

/-- Characters of the hash name SHA512. -/
def sha512Chars : List Char := "SHA512".toList

/-- Membership in the hashes map of the pbkdf2 package: exactly the five
supported hash names are keys. -/
def knownHash (h : List Char) : Bool :=
  h == sha1Chars || h == sha224Chars || h == sha256Chars ||
  h == sha384Chars || h == sha512Chars

/-- Field values representable by the Go field types of pbkdf2.Config:
64-bit int for the three numeric fields. -/
def Pbkdf2Config.inRange (c : Pbkdf2Config) : Prop :=
  -9223372036854775808 ≤ c.Iterations ∧ c.Iterations < 9223372036854775808 ∧
  -9223372036854775808 ≤ c.KeyLen ∧ c.KeyLen < 9223372036854775808 ∧
  -9223372036854775808 ≤ c.SaltLen ∧ c.SaltLen < 9223372036854775808

instance (c : Pbkdf2Config) : Decidable c.inRange := by
  unfold Pbkdf2Config.inRange; infer_instance

/-- The default pbkdf2 configuration returned by GetConfig: the SHA1
hash, whose output size gives the default key length of twenty bytes. -/
def pbkdf2GetConfig : Pbkdf2Config :=
  { Hash := sha1Chars, Iterations := 2000, KeyLen := 20, SaltLen := 16 }

/-- Message text of pbkdf2.ErrInvalidHash: the words Invalid Hash
followed by the offending hash name. -/
def invalidHashMsg (h : List Char) : List Char := "Invalid Hash: ".toList ++ h

/-- The pbkdf2 Config.validate operation: the Hash field must be a key
of the hashes map, otherwise ErrInvalidHash is returned. -/
def Pbkdf2Config.validate (c : Pbkdf2Config) : Option Err :=
  if knownHash c.Hash then none else some (.invalidHash (invalidHashMsg c.Hash))

/-- Signature of the external pbkdf2 key-derivation function: password,
salt, iterations, key length and the hash name resolved through the
hashes map.  The Go binding never returns an error for it. -/
def Pbkdf2KeyFn : Type := List Char → List Char → Int → Int → List Char → List Nat

/-- The pbkdf2 Config.Key operation: calls the external derivation with
the iteration count, key length and hash name of the config. -/
def Pbkdf2Config.Key (kdf : Pbkdf2KeyFn) (c : Pbkdf2Config)
    (password salt : List Char) : List Nat :=
  kdf password salt c.Iterations c.KeyLen c.Hash

/-- Characters of the first fragment of the pbkdf2 format string. -/
def pbkdf2LitKeylen : List Char := "keylen=".toList

/-- Characters of the iterations fragment of the pbkdf2 format string. -/
def pbkdf2LitIterations : List Char := ",iterations=".toList

/-- Characters of the hmac fragment of the pbkdf2 format string. -/
def pbkdf2LitHmac : List Char := ",hmac=".toList

/-- The pbkdf2 Config.Params operation: renders KeyLen, Iterations and
Hash with the format keylen=%d,iterations=%d,hmac=%s.  The SaltLen field
does not appear in the format. -/
def Pbkdf2Config.Params (c : Pbkdf2Config) : List Char :=
  pbkdf2LitKeylen ++ intChars c.KeyLen ++ pbkdf2LitIterations ++
  intChars c.Iterations ++ pbkdf2LitHmac ++ c.Hash

/-- The fmt.Sscanf step of pbkdf2 SetParams: matches the format
keylen=%d,iterations=%d,hmac=%s against the input and extracts the two
numbers and the hash name. -/
def pbkdf2Scan (s : List Char) : Option (Int × Int × List Char) := do
  let s1 ← dropLit pbkdf2LitKeylen s
  let (kl, s2) ← scanInt s1
  let s3 ← dropLit pbkdf2LitIterations s2
  let (it, s4) ← scanInt s3
  let s5 ← dropLit pbkdf2LitHmac s4
  let (h, _) ← scanStr s5
  pure (kl, it, h)

/-- The pbkdf2 Config.SetParams operation: scans the two numbers and the
hash name into the receiver config and validates the result; a scan
failure or a validation failure is returned as the error.  As for
argon2, the receiver's partial mutation on the scan-failure path is not
observed by any caller and only the returned error is tracked. -/
def Pbkdf2Config.SetParams (c : Pbkdf2Config) (s : List Char) :
    Except Err Pbkdf2Config :=
  match pbkdf2Scan s with
  | none => .error .parseErr
  | some (kl, it, h) =>
    let c2 : Pbkdf2Config := { c with KeyLen := kl, Iterations := it, Hash := h }
    match c2.validate with
    | some e => .error e
    | none => .ok c2

/-- The typed core of the pbkdf2 Config.AtLeast comparison: true when
none of the iteration, key-length or salt-length fields is below the
current reference.  The Hash field is not consulted. -/
def Pbkdf2Config.atLeastCfg (c cur : Pbkdf2Config) : Bool :=
  !(decide (c.Iterations < cur.Iterations) || decide (c.KeyLen < cur.KeyLen) ||
    decide (c.SaltLen < cur.SaltLen))

/-- The bridge.Implementer argument of AtLeast: the concrete dynamic
type behind the interface is one of the two plugin config types. -/
inductive Implementer where
  | argon2 : Argon2Config → Implementer
  | pbkdf2 : Pbkdf2Config → Implementer
deriving DecidableEq, Repr

/-- The argon2 Config.AtLeast operation at the public Implementer
interface: the unchecked type assertion to the argon2 config type panics
on any other concrete type, which is modeled as none. -/
def Argon2Config.AtLeast (c : Argon2Config) : Implementer → Option Bool
  | .argon2 cur => some (c.atLeastCfg cur)
  | _ => none

/-- The pbkdf2 Config.AtLeast operation at the public Implementer
interface: the unchecked type assertion to the pbkdf2 config type panics
on any other concrete type, which is modeled as none. -/
def Pbkdf2Config.AtLeast (c : Pbkdf2Config) : Implementer → Option Bool
  | .pbkdf2 cur => some (c.atLeastCfg cur)
  | _ => none

/-- An Encoder installed in the registry: the bridge pairs an algorithm
id with the config snapshot of one plugin. -/
inductive Encoder where
  | argon2enc : Argon2Config → Encoder
  | pbkdf2enc : Pbkdf2Config → Encoder
deriving DecidableEq, Repr

/-- The registry state: the id-to-Encoder mapping, as an association
list. -/
abbrev Registry : Type := List (String × Encoder)

/-- Algorithm id of the argon2 encoder. -/
def idArgon2 : String := "argon2"

/-- Algorithm id of the pbkdf2 encoder. -/
def idPbkdf2 : String := "pbkdf2"

/-- Modelled from the spec: the mcf package with its Register operation
is not part of this repository's source tree.  Register installs or
replaces the Encoder for the given id in the id-to-Encoder mapping. -/
def mcfRegister (id : String) (e : Encoder) : Registry → Registry
  | [] => [(id, e)]
  | (k, v) :: rest =>
    if k = id then (id, e) :: rest else (k, v) :: mcfRegister id e rest

/-- The argon2 SetConfig operation: validates the config and, only on
success, registers a fresh encoder under the argon2 id; a validation
error is returned as a normal error value and the registry is left
untouched. -/
def argon2SetConfig (lib : ArgonKeyFn) (c : Argon2Config) (reg : Registry) :
    Option Err × Registry :=
  match c.validate lib with
  | some e => (some e, reg)
  | none => (none, mcfRegister idArgon2 (.argon2enc c) reg)

/-- The pbkdf2 SetConfig operation: validates the config and, only on
success, registers a fresh encoder under the pbkdf2 id; a validation
error is returned as a normal error value and the registry is left
untouched. -/
def pbkdf2SetConfig (c : Pbkdf2Config) (reg : Registry) :
    Option Err × Registry :=
  match c.validate with
  | some e => (some e, reg)
  | none => (none, mcfRegister idPbkdf2 (.pbkdf2enc c) reg)

/-- Specification-side comparison written from the spec's words for the
strength claim: every cost/length dimension of the argon2 config meets
or exceeds the corresponding dimension of the reference, the salt length
being one of the cost/size knobs the spec lists. -/
def argon2DominatesAllDims (c cur : Argon2Config) : Prop :=
  cur.Iterations ≤ c.Iterations ∧ cur.Memory ≤ c.Memory ∧
  cur.Parallelism ≤ c.Parallelism ∧ cur.KeyLen ≤ c.KeyLen ∧
  cur.SaltLen ≤ c.SaltLen

instance (c cur : Argon2Config) : Decidable (argon2DominatesAllDims c cur) := by
  unfold argon2DominatesAllDims; infer_instance

/-- Specification-side comparison written from the spec's words for the
strength claim: every cost/length dimension of the pbkdf2 config meets
or exceeds the corresponding dimension of the reference; the hash name
is not a cost/length dimension. -/
def pbkdf2DominatesAllDims (c cur : Pbkdf2Config) : Prop :=
  cur.Iterations ≤ c.Iterations ∧ cur.KeyLen ≤ c.KeyLen ∧
  cur.SaltLen ≤ c.SaltLen

instance (c cur : Pbkdf2Config) : Decidable (pbkdf2DominatesAllDims c cur) := by
  unfold pbkdf2DominatesAllDims; infer_instance

/-- Message used below for the errors of a concrete behavior of the
external argon2 library. -/
def libFailMsg : String := "argon2: invalid parameters"

/-- One concrete behavior of the external argon2 library, used to
instantiate the opaque parameter: the reference argon2 implementation
rejects a zero iteration count, a zero lane count and a key length below
four bytes. -/
def strictLib : ArgonKeyFn := fun _ _ it pl _ kl =>
  if it = 0 || pl = 0 || kl < 4 then .error libFailMsg else .ok []

/-- A concrete behavior of the external argon2 library that accepts
every parameter combination, used to instantiate the opaque parameter
where a successful validation is wanted. -/
def okLib : ArgonKeyFn := fun _ _ _ _ _ _ => .ok []

/-- Characters of the unsupported hash name MD5. -/
def md5Chars : List Char := "MD5".toList

/-- A pbkdf2 params text that scans successfully but carries a hash name
outside the supported set. -/
def badHashText : List Char := "keylen=20,iterations=1000,hmac=MD5".toList

/-- An argon2 params text that scans successfully but fails the
validation of the strictLib behavior by naming zero parallelism. -/
def zeroParText : List Char := "KeyLen=32,I=8,M=1024,P=0".toList

deriving instance DecidableEq for Except

/-!
Lemmas.  The development below first establishes that the decimal
printer and the fmt-style scanners invert each other, then the
round-trip, validation, registration and comparison theorems for the
ten claims, each followed by its witness where the statement carries a
hypothesis.
-/

/-- Unfolding step of the fuel-driven digit loop. -/
theorem natCharsAux_succ (fuel n : Nat) (acc : List Char) :
    natCharsAux (fuel + 1) n acc =
      if n < 10 then digitCh n :: acc
      else natCharsAux fuel (n / 10) (digitCh (n % 10) :: acc) := rfl

/-- The digit loop only prepends to its accumulator. -/
theorem natCharsAux_acc (fuel : Nat) : ∀ (n : Nat) (acc : List Char),
    natCharsAux fuel n acc = natCharsAux fuel n [] ++ acc := by
  induction fuel with
  | zero => intro n acc; simp [natCharsAux]
  | succ f ih =>
    intro n acc
    by_cases h : n < 10
    · simp [natCharsAux_succ, h]
    · rw [natCharsAux_succ, natCharsAux_succ, if_neg h, if_neg h]
      rw [ih (n / 10) (digitCh (n % 10) :: acc), ih (n / 10) [digitCh (n % 10)]]
      simp

/-- The digit loop is insensitive to the exact fuel once the fuel
exceeds the number. -/
theorem natCharsAux_fuel : ∀ (n f1 f2 : Nat), n < f1 → n < f2 →
    natCharsAux f1 n [] = natCharsAux f2 n [] := by
  intro n
  induction n using Nat.strong_induction_on with
  | _ n ih =>
    intro f1 f2 h1 h2
    cases f1 with
    | zero => omega
    | succ g1 =>
      cases f2 with
      | zero => omega
      | succ g2 =>
        by_cases h : n < 10
        · rw [natCharsAux_succ, natCharsAux_succ, if_pos h, if_pos h]
        · rw [natCharsAux_succ, natCharsAux_succ, if_neg h, if_neg h]
          rw [natCharsAux_acc g1, natCharsAux_acc g2]
          rw [ih (n / 10) (by omega) g1 g2 (by omega) (by omega)]

/-- Recurrence satisfied by the decimal printer. -/
theorem natChars_eq (n : Nat) :
    natChars n =
      if n < 10 then [digitCh n] else natChars (n / 10) ++ [digitCh (n % 10)] := by
  by_cases h : n < 10
  · simp [natChars, natCharsAux_succ, h]
  · have h1 : natChars n = natCharsAux n (n / 10) [digitCh (n % 10)] := by
      simp [natChars, natCharsAux_succ, h]
    rw [h1, natCharsAux_acc, natCharsAux_fuel (n / 10) n (n / 10 + 1) (by omega) (by omega)]
    simp [natChars, h]

/-- The decimal printer never returns an empty list. -/
theorem natChars_ne_nil (n : Nat) : natChars n ≠ [] := by
  rw [natChars_eq]
  by_cases h : n < 10
  · simp [h]
  · simp [h]

/-- Value of a digit character produced by the printer. -/
theorem digitCh_toNat {d : Nat} (h : d < 10) : (digitCh d).toNat = 48 + d := by
  interval_cases d <;> decide

/-- Characters produced for single digits are digit characters. -/
theorem isDigitCh_digitCh {d : Nat} (h : d < 10) : isDigitCh (digitCh d) = true := by
  interval_cases d <;> decide

/-- Every character the decimal printer produces is a digit. -/
theorem natChars_digits (n : Nat) : ∀ c ∈ natChars n, isDigitCh c = true := by
  induction n using Nat.strong_induction_on with
  | _ n ih =>
    intro c hc
    rw [natChars_eq] at hc
    by_cases h : n < 10
    · rw [if_pos h] at hc
      simp at hc
      subst hc
      exact isDigitCh_digitCh h
    · rw [if_neg h] at hc
      rcases List.mem_append.1 hc with h2 | h2
      · exact ih (n / 10) (by omega) c h2
      · simp at h2
        subst h2
        exact isDigitCh_digitCh (by omega)

/-- Reading one more trailing digit multiplies the value by ten. -/
theorem digitsVal_append_one (ds : List Char) (c : Char) :
    digitsVal (ds ++ [c]) = digitsVal ds * 10 + (c.toNat - 48) := by
  simp [digitsVal, List.foldl_append]

/-- Reading the printed digits of a number back gives the number. -/
theorem digitsVal_natChars (n : Nat) : digitsVal (natChars n) = n := by
  induction n using Nat.strong_induction_on with
  | _ n ih =>
    rw [natChars_eq]
    by_cases h : n < 10
    · rw [if_pos h]
      simp only [digitsVal, List.foldl]
      rw [digitCh_toNat h]
      omega
    · rw [if_neg h, digitsVal_append_one, ih (n / 10) (by omega), digitCh_toNat (by omega)]
      omega

/-- The digit scanner consumes exactly a digit run followed by a
non-digit boundary. -/
theorem takeDigits_append (ds rest : List Char)
    (hds : ∀ c ∈ ds, isDigitCh c = true)
    (hrest : ∀ c, rest.head? = some c → isDigitCh c = false) :
    takeDigits (ds ++ rest) = (ds, rest) := by
  induction ds with
  | nil =>
    simp only [List.nil_append]
    cases rest with
    | nil => rfl
    | cons c cs =>
      have h := hrest c rfl
      simp [takeDigits, h]
  | cons d ds2 ih =>
    have hd := hds d (List.mem_cons_self d ds2)
    simp only [List.cons_append, takeDigits, hd, if_true, List.append_eq]
    rw [ih (fun c hc => hds c (List.mem_cons_of_mem d hc))]

/-- Head of an append whose first part is nonempty. -/
theorem head_append_of_ne_nil {α : Type} (xs ys : List α) (h : xs ≠ []) :
    (xs ++ ys).head? = xs.head? := by
  cases xs with
  | nil => exact absurd rfl h
  | cons a as => rfl

/-- Head of a printed number is a digit. -/
theorem natChars_head_digit (n : Nat) :
    ∀ c, (natChars n).head? = some c → isDigitCh c = true := by
  intro c hc
  have hm : c ∈ natChars n := by
    cases hnc : natChars n with
    | nil => rw [hnc] at hc; cases hc
    | cons a as =>
      rw [hnc] at hc
      simp at hc
      subst hc
      exact List.mem_cons_self a as
  exact natChars_digits n c hm

/-- A digit character is not the space character. -/
theorem digit_ne_space {c : Char} (h : isDigitCh c = true) : c ≠ ' ' := by
  intro he
  rw [he] at h
  exact absurd h (by decide)

/-- A digit character is not the minus sign. -/
theorem digit_ne_minus {c : Char} (h : isDigitCh c = true) : c ≠ '-' := by
  intro he
  rw [he] at h
  exact absurd h (by decide)

/-- A digit character is not the plus sign. -/
theorem digit_ne_plus {c : Char} (h : isDigitCh c = true) : c ≠ '+' := by
  intro he
  rw [he] at h
  exact absurd h (by decide)

/-- Space skipping is the identity when the head is not a space. -/
theorem dropSpaces_of_head (s : List Char)
    (h : ∀ c, s.head? = some c → c ≠ ' ') : dropSpaces s = s := by
  cases s with
  | nil => rfl
  | cons c cs => simp [dropSpaces, h c rfl]

/-- The sign scanner is the identity on digit-headed input. -/
theorem scanSign_digit (s : List Char)
    (h : ∀ c, s.head? = some c → isDigitCh c = true) : scanSign s = (false, s) := by
  cases s with
  | nil => rfl
  | cons c cs =>
    have hd := h c rfl
    simp [scanSign, digit_ne_minus hd, digit_ne_plus hd]

/-- Scanning the digits of a printed number at a non-digit boundary
recovers the number. -/
theorem scanDigits_natChars (n : Nat) (rest : List Char)
    (hrest : ∀ c, rest.head? = some c → isDigitCh c = false) :
    scanDigits (natChars n ++ rest) = some (n, rest) := by
  unfold scanDigits
  rw [takeDigits_append (natChars n) rest (natChars_digits n) hrest]
  simp [natChars_ne_nil n, digitsVal_natChars n]

/-- Heads of a printed-number-led list are digits. -/
theorem natChars_append_head_digit (n : Nat) (rest : List Char) :
    ∀ c, (natChars n ++ rest).head? = some c → isDigitCh c = true := by
  intro c hc
  rw [head_append_of_ne_nil _ _ (natChars_ne_nil n)] at hc
  exact natChars_head_digit n c hc

/-- The uint32 scanner recovers a printed in-range number at a non-digit
boundary. -/
theorem scanNat32_natChars (n : Nat) (rest : List Char) (hn : n < 4294967296)
    (hrest : ∀ c, rest.head? = some c → isDigitCh c = false) :
    scanNat32 (natChars n ++ rest) = some (n, rest) := by
  unfold scanNat32
  rw [dropSpaces_of_head _ (fun c hc => digit_ne_space (natChars_append_head_digit n rest c hc))]
  rw [scanDigits_natChars n rest hrest]
  simp [hn]

/-- The int scanner recovers a printed in-range integer at a non-digit
boundary. -/
theorem scanInt_intChars (i : Int) (rest : List Char)
    (h1 : -9223372036854775808 ≤ i) (h2 : i < 9223372036854775808)
    (hrest : ∀ c, rest.head? = some c → isDigitCh c = false) :
    scanInt (intChars i ++ rest) = some (i, rest) := by
  by_cases hneg : i < 0
  · have hrepr : intChars i = '-' :: natChars i.natAbs := by
      simp [intChars, hneg]
    rw [hrepr, List.cons_append]
    have hds : dropSpaces ('-' :: (natChars i.natAbs ++ rest)) =
        '-' :: (natChars i.natAbs ++ rest) := rfl
    have hsg : scanSign ('-' :: (natChars i.natAbs ++ rest)) =
        (true, natChars i.natAbs ++ rest) := rfl
    unfold scanInt
    rw [hds, hsg]
    rw [scanDigits_natChars i.natAbs rest hrest]
    have habs : -((i.natAbs : Nat) : Int) = i := by omega
    simp only [if_true]
    rw [habs]
    simp [h1, h2]
  · have hrepr : intChars i = natChars i.toNat := by
      simp [intChars, hneg]
    rw [hrepr]
    have hhd := natChars_append_head_digit i.toNat rest
    have hds : dropSpaces (natChars i.toNat ++ rest) = natChars i.toNat ++ rest :=
      dropSpaces_of_head _ (fun c hc => digit_ne_space (hhd c hc))
    have hsg : scanSign (natChars i.toNat ++ rest) = (false, natChars i.toNat ++ rest) :=
      scanSign_digit _ hhd
    unfold scanInt
    rw [hds, hsg]
    rw [scanDigits_natChars i.toNat rest hrest]
    have htn : ((i.toNat : Nat) : Int) = i := by omega
    simp only [if_false]
    rw [htn]
    simp [h1, h2]

/-- The literal matcher consumes exactly the literal. -/
theorem dropLit_self (lit s : List Char) : dropLit lit (lit ++ s) = some s := by
  induction lit with
  | nil => rfl
  | cons l ls ih => simp [dropLit, ih]

/-- The non-space scanner consumes a whole space-free list. -/
theorem takeNonSpace_all (ds : List Char) (h : ∀ c ∈ ds, c ≠ ' ') :
    takeNonSpace ds = (ds, []) := by
  induction ds with
  | nil => rfl
  | cons c cs ih =>
    have hc := h c (List.mem_cons_self c cs)
    have hrec := ih (fun x hx => h x (List.mem_cons_of_mem c hx))
    simp [takeNonSpace, hc, hrec]

/-- The verb s scanner returns a whole nonempty space-free input. -/
theorem scanStr_all (ds : List Char) (hne : ds ≠ []) (h : ∀ c ∈ ds, c ≠ ' ') :
    scanStr ds = some (ds, []) := by
  have hd : dropSpaces ds = ds := by
    apply dropSpaces_of_head
    intro c hc
    apply h c
    cases ds with
    | nil => cases hc
    | cons a as =>
      simp at hc
      rw [← hc]
      exact List.mem_cons_self a as
  unfold scanStr
  rw [hd, takeNonSpace_all ds h]
  simp [hne]

/-- A known hash name is one of the five supported names. -/
theorem knownHash_cases {h : List Char} (hk : knownHash h = true) :
    h = sha1Chars ∨ h = sha224Chars ∨ h = sha256Chars ∨
    h = sha384Chars ∨ h = sha512Chars := by
  simp [knownHash] at hk
  tauto

/-- A comma-headed remainder is a non-digit boundary. -/
theorem not_digit_of_head_comma {xs : List Char} (h : xs.head? = some ',') :
    ∀ c, xs.head? = some c → isDigitCh c = false := by
  intro c hc
  rw [h] at hc
  injection hc with he
  subst he
  decide

/-- An empty remainder is a non-digit boundary. -/
theorem not_digit_of_nil : ∀ c, ([] : List Char).head? = some c → isDigitCh c = false := by
  intro c hc
  cases hc

/-- Scanning the printed argon2 params recovers the four numbers. -/
theorem argon2Scan_params (c : Argon2Config) (h : c.inRange) :
    argon2Scan c.Params = some (c.KeyLen, c.Iterations, c.Memory, c.Parallelism) := by
  obtain ⟨hi, hm, hp, hk1, hk2, _, _⟩ := h
  have e1 : scanInt (intChars c.KeyLen ++ (argon2LitI ++ (natChars c.Iterations ++
      (argon2LitM ++ (natChars c.Memory ++ (argon2LitP ++ natChars c.Parallelism)))))) =
      some (c.KeyLen, argon2LitI ++ (natChars c.Iterations ++ (argon2LitM ++
      (natChars c.Memory ++ (argon2LitP ++ natChars c.Parallelism))))) :=
    scanInt_intChars _ _ hk1 hk2 (not_digit_of_head_comma rfl)
  have e2 : scanNat32 (natChars c.Iterations ++ (argon2LitM ++ (natChars c.Memory ++
      (argon2LitP ++ natChars c.Parallelism)))) =
      some (c.Iterations, argon2LitM ++ (natChars c.Memory ++
      (argon2LitP ++ natChars c.Parallelism))) :=
    scanNat32_natChars _ _ hi (not_digit_of_head_comma rfl)
  have e3 : scanNat32 (natChars c.Memory ++ (argon2LitP ++ natChars c.Parallelism)) =
      some (c.Memory, argon2LitP ++ natChars c.Parallelism) :=
    scanNat32_natChars _ _ hm (not_digit_of_head_comma rfl)
  have e4 : scanNat32 (natChars c.Parallelism ++ []) = some (c.Parallelism, []) :=
    scanNat32_natChars _ _ hp not_digit_of_nil
  rw [List.append_nil] at e4
  simp only [argon2Scan, Argon2Config.Params, List.append_assoc, dropLit_self,
    e1, e2, e3, e4, Option.some_bind, Option.bind_eq_bind, Option.pure_def]

/-- Scanning the printed pbkdf2 params recovers the two numbers and the
hash name, provided the hash is a supported one. -/
theorem pbkdf2Scan_params (c : Pbkdf2Config) (h : c.inRange)
    (hk : knownHash c.Hash = true) :
    pbkdf2Scan c.Params = some (c.KeyLen, c.Iterations, c.Hash) := by
  obtain ⟨hi1, hi2, hk1, hk2, _, _⟩ := h
  have hHne : c.Hash ≠ [] := by
    rcases knownHash_cases hk with h5 | h5 | h5 | h5 | h5 <;> rw [h5] <;> decide
  have hHsp : ∀ ch ∈ c.Hash, ch ≠ ' ' := by
    rcases knownHash_cases hk with h5 | h5 | h5 | h5 | h5 <;> rw [h5] <;> decide
  have e1 : scanInt (intChars c.KeyLen ++ (pbkdf2LitIterations ++
      (intChars c.Iterations ++ (pbkdf2LitHmac ++ c.Hash)))) =
      some (c.KeyLen, pbkdf2LitIterations ++ (intChars c.Iterations ++
      (pbkdf2LitHmac ++ c.Hash))) :=
    scanInt_intChars _ _ hk1 hk2 (not_digit_of_head_comma rfl)
  have e2 : scanInt (intChars c.Iterations ++ (pbkdf2LitHmac ++ c.Hash)) =
      some (c.Iterations, pbkdf2LitHmac ++ c.Hash) :=
    scanInt_intChars _ _ hi1 hi2 (not_digit_of_head_comma rfl)
  have e3 : scanStr c.Hash = some (c.Hash, []) := scanStr_all c.Hash hHne hHsp
  simp only [pbkdf2Scan, Pbkdf2Config.Params, List.append_assoc, dropLit_self,
    e1, e2, e3, Option.some_bind, Option.bind_eq_bind, Option.pure_def]

/-- A valid argon2 config round-trips through Params and SetParams on
the four serialized fields, the receiver keeping its own salt length. -/
theorem argon2SetParams_roundTrip (lib : ArgonKeyFn) (c c0 : Argon2Config)
    (h : c.inRange) (hv : c.validate lib = none) :
    Argon2Config.SetParams lib c0 c.Params =
      .ok { c0 with KeyLen := c.KeyLen, Iterations := c.Iterations,
                    Memory := c.Memory, Parallelism := c.Parallelism } := by
  have hv2 : Argon2Config.validate lib
      { c0 with KeyLen := c.KeyLen, Iterations := c.Iterations,
                Memory := c.Memory, Parallelism := c.Parallelism } = none := hv
  simp only [Argon2Config.SetParams, argon2Scan_params c h, hv2]

/-- A valid pbkdf2 config round-trips through Params and SetParams on
the three serialized fields, the receiver keeping its own salt length. -/
theorem pbkdf2SetParams_roundTrip (c c0 : Pbkdf2Config)
    (h : c.inRange) (hv : c.validate = none) :
    Pbkdf2Config.SetParams c0 c.Params =
      .ok { c0 with Hash := c.Hash, Iterations := c.Iterations,
                    KeyLen := c.KeyLen } := by
  have hk : knownHash c.Hash = true := by
    unfold Pbkdf2Config.validate at hv
    by_cases hkh : knownHash c.Hash
    · exact hkh
    · rw [if_neg (by simp [hkh])] at hv
      cases hv
  have hv2 : Pbkdf2Config.validate
      { c0 with KeyLen := c.KeyLen, Iterations := c.Iterations,
                Hash := c.Hash } = none := hv
  simp only [Pbkdf2Config.SetParams, pbkdf2Scan_params c h hk, hv2]

/-- C1 counterexample: the round-trip claim fails as stated on the
pbkdf2 plugin.  SaltLen is consulted by AtLeast but does not appear in
the serialized params, so applying SetParams to the string produced by
Params yields a config whose SaltLen is the receiver's prior value
(sixteen, not the original seventeen), and the reconstructed config is
distinguishable from the original by AtLeast. -/
theorem c1_roundTrip_counterexample :
    Pbkdf2Config.SetParams pbkdf2GetConfig
        (Pbkdf2Config.Params { Hash := sha1Chars, Iterations := 2000, KeyLen := 20, SaltLen := 17 }) =
      .ok { Hash := sha1Chars, Iterations := 2000, KeyLen := 20, SaltLen := 16 } ∧
    Pbkdf2Config.atLeastCfg { Hash := sha1Chars, Iterations := 2000, KeyLen := 20, SaltLen := 16 }
        { Hash := sha1Chars, Iterations := 2000, KeyLen := 20, SaltLen := 17 } = false ∧
    Pbkdf2Config.atLeastCfg { Hash := sha1Chars, Iterations := 2000, KeyLen := 20, SaltLen := 17 }
        { Hash := sha1Chars, Iterations := 2000, KeyLen := 20, SaltLen := 17 } = true :=
  ⟨by decide, by decide, by decide⟩

/-- C1 (amended): for every valid in-range config of either plugin,
applying SetParams to the string produced by Params succeeds and
restores every serialized field: for argon2 these are exactly the
fields used by Key and by AtLeast (KeyLen, Iterations, Memory,
Parallelism); for pbkdf2 they are exactly the fields used by Key
(KeyLen, Iterations, Hash), while SaltLen, which pbkdf2 AtLeast also
uses, is not serialized and keeps the receiver's prior value. -/
theorem c1_roundTrip_amended (lib : ArgonKeyFn) (c c0 : Argon2Config)
    (hc : c.inRange) (hcv : c.validate lib = none)
    (d d0 : Pbkdf2Config) (hd : d.inRange) (hdv : d.validate = none) :
    Argon2Config.SetParams lib c0 c.Params =
      .ok { c0 with KeyLen := c.KeyLen, Iterations := c.Iterations,
                    Memory := c.Memory, Parallelism := c.Parallelism } ∧
    Pbkdf2Config.SetParams d0 d.Params =
      .ok { d0 with Hash := d.Hash, Iterations := d.Iterations, KeyLen := d.KeyLen } :=
  ⟨argon2SetParams_roundTrip lib c c0 hc hcv, pbkdf2SetParams_roundTrip d d0 hd hdv⟩

/-- Witness for the amended round-trip at the default configs against
receivers carrying a different salt length. -/
theorem c1_roundTrip_amended_witness :
    Argon2Config.SetParams okLib { argon2GetConfig with SaltLen := 99 } argon2GetConfig.Params =
      .ok { KeyLen := 32, SaltLen := 99, Iterations := 8, Memory := 1024, Parallelism := 4 } ∧
    Pbkdf2Config.SetParams { pbkdf2GetConfig with SaltLen := 99 } pbkdf2GetConfig.Params =
      .ok { Hash := sha1Chars, Iterations := 2000, KeyLen := 20, SaltLen := 99 } :=
  c1_roundTrip_amended okLib argon2GetConfig { argon2GetConfig with SaltLen := 99 }
    (by decide) rfl pbkdf2GetConfig { pbkdf2GetConfig with SaltLen := 99 } (by decide) rfl

/-- C2 counterexample: argon2 AtLeast is not the meet-or-exceed
comparison over all cost/length dimensions of the config: a config
whose SaltLen is below the reference still compares as at least as
strong, because argon2 AtLeast never consults SaltLen. -/
theorem c2_perDimension_counterexample :
    Argon2Config.atLeastCfg { argon2GetConfig with SaltLen := 1 } argon2GetConfig = true ∧
    ¬ argon2DominatesAllDims { argon2GetConfig with SaltLen := 1 } argon2GetConfig :=
  ⟨by decide, by decide⟩

/-- C2 (amended): AtLeast is the per-dimension meet-or-exceed
comparison, not a lexicographic one, over exactly the dimensions each
plugin consults: for pbkdf2 all of its cost/length dimensions
(iterations, key length, salt length); for argon2 the dimensions
iterations, memory, parallelism and key length, with salt length
ignored. -/
theorem c2_perDimension_amended :
    (∀ c cur : Argon2Config, Argon2Config.atLeastCfg c cur = true ↔
      (cur.Iterations ≤ c.Iterations ∧ cur.Memory ≤ c.Memory ∧
       cur.Parallelism ≤ c.Parallelism ∧ cur.KeyLen ≤ c.KeyLen)) ∧
    (∀ c cur : Pbkdf2Config, Pbkdf2Config.atLeastCfg c cur = true ↔
      pbkdf2DominatesAllDims c cur) := by
  constructor
  · intro c cur
    simp only [Argon2Config.atLeastCfg, Bool.not_eq_true', Bool.or_eq_false_iff,
      decide_eq_false_iff_not, not_lt]
    tauto
  · intro c cur
    simp only [Pbkdf2Config.atLeastCfg, pbkdf2DominatesAllDims, Bool.not_eq_true',
      Bool.or_eq_false_iff, decide_eq_false_iff_not, not_lt]
    tauto

/-- C3: upgrade detection for argon2: a stored config with iterations
eight, compared against a reference equal in every other field but with
iterations sixteen, is not at least as strong (IsCurrent false), and
with iterations sixteen it is (IsCurrent true). -/
theorem c3_upgradeDetection :
    Argon2Config.AtLeast { argon2GetConfig with Iterations := 8 }
        (.argon2 { argon2GetConfig with Iterations := 16 }) = some false ∧
    Argon2Config.AtLeast { argon2GetConfig with Iterations := 16 }
        (.argon2 { argon2GetConfig with Iterations := 16 }) = some true :=
  ⟨by decide, by decide⟩

/-- C4 counterexample: an argon2 config failing validation does not
produce the ErrInvalidParameter kind: SetConfig returns the external
library's own error, which carries no field name and value in the
declared InvalidParameter shape. -/
theorem c4_invalidParameter_counterexample :
    argon2SetConfig strictLib { argon2GetConfig with Parallelism := 0 } [] =
      (some (.libErr libFailMsg), []) ∧
    Err.isInvalidParameter (.libErr libFailMsg) = false :=
  ⟨by decide, by decide⟩

/-- C4 (amended): on a validation failure, pbkdf2 SetConfig reports
ErrInvalidHash whose message names the Hash field and carries the
offending value, while argon2 SetConfig propagates the external
derivation library's error unchanged, which is never the declared
ErrInvalidParameter kind (that type is never constructed). -/
theorem c4_invalidParameter_amended :
    (∀ (d : Pbkdf2Config) (reg : Registry), knownHash d.Hash = false →
      (pbkdf2SetConfig d reg).1 = some (.invalidHash (invalidHashMsg d.Hash))) ∧
    (∀ (lib : ArgonKeyFn) (c : Argon2Config) (reg : Registry) (e : Err),
      c.validate lib = some e →
      (argon2SetConfig lib c reg).1 = some e ∧ e.isInvalidParameter = false) := by
  constructor
  · intro d reg hk
    simp [pbkdf2SetConfig, Pbkdf2Config.validate, hk]
  · intro lib c reg e hv
    refine ⟨by simp [argon2SetConfig, hv], ?_⟩
    unfold Argon2Config.validate at hv
    revert hv
    cases Argon2Config.Key lib c sentinelPassword sentinelSalt with
    | error msg =>
      intro hv
      injection hv with he
      rw [← he]
      rfl
    | ok v =>
      intro hv
      cases hv

/-- Witness for the amended validation-error shapes at concrete failing
configs of both plugins. -/
theorem c4_invalidParameter_witness :
    (pbkdf2SetConfig { pbkdf2GetConfig with Hash := md5Chars } []).1 =
      some (.invalidHash (invalidHashMsg md5Chars)) ∧
    (argon2SetConfig strictLib { argon2GetConfig with Iterations := 0 } []).1 =
      some (.libErr libFailMsg) ∧
    Err.isInvalidParameter (.libErr libFailMsg) = false := by
  refine ⟨c4_invalidParameter_amended.1 { pbkdf2GetConfig with Hash := md5Chars } [] (by decide), ?_, ?_⟩
  · exact (c4_invalidParameter_amended.2 strictLib { argon2GetConfig with Iterations := 0 } []
      (.libErr libFailMsg) (by decide)).1
  · exact (c4_invalidParameter_amended.2 strictLib { argon2GetConfig with Iterations := 0 } []
      (.libErr libFailMsg) (by decide)).2

/-- C5: whenever a params text scans successfully but the reconstructed
config fails validation, SetParams returns the validation error instead
of accepting the config, for both plugins: validation runs on every
reconstruction from text. -/
theorem c5_validateOnReconstruction :
    (∀ (c0 : Pbkdf2Config) (s : List Char) (kl it : Int) (h : List Char) (e : Err),
      pbkdf2Scan s = some (kl, it, h) →
      Pbkdf2Config.validate { c0 with KeyLen := kl, Iterations := it, Hash := h } = some e →
      Pbkdf2Config.SetParams c0 s = .error e) ∧
    (∀ (lib : ArgonKeyFn) (c0 : Argon2Config) (s : List Char) (kl : Int)
        (it mem pl : Nat) (e : Err),
      argon2Scan s = some (kl, it, mem, pl) →
      Argon2Config.validate lib
        { c0 with KeyLen := kl, Iterations := it, Memory := mem,
                  Parallelism := pl } = some e →
      Argon2Config.SetParams lib c0 s = .error e) := by
  constructor
  · intro c0 s kl it h e hs hv
    simp [Pbkdf2Config.SetParams, hs, hv]
  · intro lib c0 s kl it mem pl e hs hv
    simp [Argon2Config.SetParams, hs, hv]

/-- Witness for validation on reconstruction: a pbkdf2 text naming the
unsupported hash MD5 and an argon2 text naming zero parallelism under
the strictLib behavior are both rejected by SetParams. -/
theorem c5_validateOnReconstruction_witness :
    Pbkdf2Config.SetParams pbkdf2GetConfig badHashText =
      .error (.invalidHash (invalidHashMsg md5Chars)) ∧
    Argon2Config.SetParams strictLib argon2GetConfig zeroParText =
      .error (.libErr libFailMsg) :=
  ⟨c5_validateOnReconstruction.1 pbkdf2GetConfig badHashText 20 1000 md5Chars
      (.invalidHash (invalidHashMsg md5Chars)) (by decide) (by decide),
   c5_validateOnReconstruction.2 strictLib argon2GetConfig zeroParText 32 8 1024 0
      (.libErr libFailMsg) (by decide) (by decide)⟩

/-- C6: for every config failing validation, SetConfig of either plugin
returns the validation error as a normal error value and performs no
registration: the id-to-Encoder mapping is returned unchanged. -/
theorem c6_noRegistrationOnError :
    (∀ (lib : ArgonKeyFn) (c : Argon2Config) (reg : Registry) (e : Err),
      c.validate lib = some e → argon2SetConfig lib c reg = (some e, reg)) ∧
    (∀ (d : Pbkdf2Config) (reg : Registry) (e : Err),
      d.validate = some e → pbkdf2SetConfig d reg = (some e, reg)) := by
  constructor
  · intro lib c reg e hv
    simp [argon2SetConfig, hv]
  · intro d reg e hv
    simp [pbkdf2SetConfig, hv]

/-- Witness for no-registration-on-error on a populated registry, with
an argon2 key length below four bytes under the strictLib behavior and
an unsupported pbkdf2 hash. -/
theorem c6_noRegistrationOnError_witness :
    argon2SetConfig strictLib { argon2GetConfig with KeyLen := 1 }
        [(idPbkdf2, .pbkdf2enc pbkdf2GetConfig)] =
      (some (.libErr libFailMsg), [(idPbkdf2, .pbkdf2enc pbkdf2GetConfig)]) ∧
    pbkdf2SetConfig { pbkdf2GetConfig with Hash := md5Chars }
        [(idArgon2, .argon2enc argon2GetConfig)] =
      (some (.invalidHash (invalidHashMsg md5Chars)),
       [(idArgon2, .argon2enc argon2GetConfig)]) :=
  ⟨c6_noRegistrationOnError.1 strictLib { argon2GetConfig with KeyLen := 1 }
      [(idPbkdf2, .pbkdf2enc pbkdf2GetConfig)] (.libErr libFailMsg) (by decide),
   c6_noRegistrationOnError.2 { pbkdf2GetConfig with Hash := md5Chars }
      [(idArgon2, .argon2enc argon2GetConfig)] (.invalidHash (invalidHashMsg md5Chars))
      (by decide)⟩

/-- C7: the AtLeast comparison of either plugin is reflexive: every
config is at least as strong as itself. -/
theorem c7_atLeastRefl :
    (∀ c : Argon2Config, Argon2Config.AtLeast c (.argon2 c) = some true) ∧
    (∀ d : Pbkdf2Config, Pbkdf2Config.AtLeast d (.pbkdf2 d) = some true) := by
  constructor
  · intro c
    simp [Argon2Config.AtLeast, Argon2Config.atLeastCfg]
  · intro d
    simp [Pbkdf2Config.AtLeast, Pbkdf2Config.atLeastCfg]

/-- C8: pbkdf2 AtLeast does not depend on the Hash field: two configs
agreeing on Iterations, KeyLen and SaltLen compare as at least as
strong in both directions whatever their Hash values, although the Hash
field is what selects the pseudorandom function of the derivation. -/
theorem c8_atLeastIgnoresHash :
    ∀ c1 c2 : Pbkdf2Config, c1.Iterations = c2.Iterations → c1.KeyLen = c2.KeyLen →
      c1.SaltLen = c2.SaltLen →
      Pbkdf2Config.AtLeast c1 (.pbkdf2 c2) = some true ∧
      Pbkdf2Config.AtLeast c2 (.pbkdf2 c1) = some true := by
  intro c1 c2 h1 h2 h3
  constructor <;>
    simp [Pbkdf2Config.AtLeast, Pbkdf2Config.atLeastCfg, h1, h2, h3]

/-- Witness for Hash-independence of pbkdf2 AtLeast at the default
config paired with its SHA256 variant, which derives different
digests. -/
theorem c8_atLeastIgnoresHash_witness :
    Pbkdf2Config.AtLeast pbkdf2GetConfig
        (.pbkdf2 { pbkdf2GetConfig with Hash := sha256Chars }) = some true ∧
    Pbkdf2Config.AtLeast { pbkdf2GetConfig with Hash := sha256Chars }
        (.pbkdf2 pbkdf2GetConfig) = some true :=
  c8_atLeastIgnoresHash pbkdf2GetConfig { pbkdf2GetConfig with Hash := sha256Chars }
    rfl rfl rfl

/-- C9: AtLeast is partial at the public Implementer interface: the
unchecked type assertion to the receiver's own config type panics
(modeled as none) when the argument's concrete type is the other
plugin's config, instead of returning false or an error. -/
theorem c9_crossTypeAssertionPanics :
    (∀ (a : Argon2Config) (p : Pbkdf2Config),
      Argon2Config.AtLeast a (.pbkdf2 p) = none) ∧
    (∀ (p : Pbkdf2Config) (a : Argon2Config),
      Pbkdf2Config.AtLeast p (.argon2 a) = none) :=
  ⟨fun _ _ => rfl, fun _ _ => rfl⟩

/-- C10: a successful argon2 SetParams assigns exactly the four scanned
fields KeyLen, Iterations, Memory and Parallelism and leaves the
receiver's SaltLen unchanged, SaltLen not being part of the serialized
format. -/
theorem c10_setParamsFrame :
    ∀ (lib : ArgonKeyFn) (c c2 : Argon2Config) (s : List Char),
      Argon2Config.SetParams lib c s = .ok c2 →
      c2.SaltLen = c.SaltLen ∧
      argon2Scan s = some (c2.KeyLen, c2.Iterations, c2.Memory, c2.Parallelism) := by
  intro lib c c2 s hok
  unfold Argon2Config.SetParams at hok
  cases hscan : argon2Scan s with
  | none =>
    rw [hscan] at hok
    cases hok
  | some q =>
    obtain ⟨kl, it, mem, pl⟩ := q
    rw [hscan] at hok
    dsimp only at hok
    cases hval : Argon2Config.validate lib
        { c with KeyLen := kl, Iterations := it, Memory := mem, Parallelism := pl } with
    | some e =>
      rw [hval] at hok
      cases hok
    | none =>
      rw [hval] at hok
      injection hok with he
      subst he
      exact ⟨rfl, rfl⟩

/-- Witness for the SetParams frame property at a concrete params text
that changes all four serialized fields. -/
theorem c10_setParamsFrame_witness :
    ({ KeyLen := 64, SaltLen := 16, Iterations := 16, Memory := 2048,
       Parallelism := 2 } : Argon2Config).SaltLen = argon2GetConfig.SaltLen ∧
    argon2Scan ( "KeyLen=64,I=16,M=2048,P=2".toList) = some (64, 16, 2048, 2) :=
  c10_setParamsFrame okLib argon2GetConfig
    { KeyLen := 64, SaltLen := 16, Iterations := 16, Memory := 2048, Parallelism := 2 }
    ( "KeyLen=64,I=16,M=2048,P=2".toList) (by decide)
